import Mathlib

/-!
Verification development for the single-cell memory-mapped CSR store
(`SingleCellMemMapDataset` in
`sub-packages/bionemo-scdl/src/bionemo/scdl/io/single_cell_memmap_dataset.py`).

The store keeps a sparse matrix in compressed-sparse-row form as three flat
arrays (`data`, `col_index`, `row_index`) plus a `RowFeatureIndex` collaborator
that maps contiguous row blocks to feature schemas.  Arrays are modelled as
Lean lists; the `float32` data values are modelled as rationals (the code only
copies and compares them, never performs float arithmetic on them); `uint32`
column ids and `uint64` row pointers are modelled as `Nat` (the code never
exercises wraparound).  File-system state is modelled explicitly where an
operation's contract mentions it.
-/

/-- One block of the feature index: a contiguous range of `n_obs` rows that a
single source ingestion contributed, all sharing one schema of `n_vars`
features.  Modelled from the spec: `RowFeatureIndex` "tracks, for each
contiguous block of rows contributed by a given source ingestion, the ordered
list/metadata of feature (column) identities and count"; only the counts are
observable through the claims. -/
structure FeatureBlock where
  n_obs : Nat
  n_vars : Nat
  deriving DecidableEq, Repr

namespace RowFeatureIndex

/-- Modelled from the spec: `RowFeatureIndex.number_of_rows` — "the sum of
row-counts across all schema blocks equals the dataset's `num_rows`". -/
def number_of_rows (fi : List FeatureBlock) : Nat :=
  (fi.map (fun b => b.n_obs)).sum

/-- Modelled from the spec: the dataset's `number_of_values` docstring — "for
each index, the length of the corresponding dataframe is counted ... the sum
of lengths of the features in every row"; per block that is
`n_obs * n_vars` dense slots, returned as one entry per block ([0] when the
index is empty). -/
def number_of_values (fi : List FeatureBlock) : List Nat :=
  match fi with
  | [] => [0]
  | _ => fi.map (fun b => b.n_obs * b.n_vars)

/-- Modelled from the spec: "row-range lookup (which schema applies to row i)";
returns the schema width of the block containing the row. -/
def number_vars_at_row (fi : List FeatureBlock) (row : Nat) : Nat :=
  match fi with
  | [] => 0
  | b :: bs => if row < b.n_obs then b.n_vars else number_vars_at_row bs (row - b.n_obs)

/-- Modelled from the spec: schema concatenation "extends the row-range table",
"preserving per-source-block row ranges". -/
def concat (fi other : List FeatureBlock) : List FeatureBlock :=
  fi ++ other

/-- Modelled from the spec: `append_features(count, labels, source_tag)` adds
one new source block. -/
def append_features (fi : List FeatureBlock) (nObs nVars : Nat) : List FeatureBlock :=
  fi ++ [⟨nObs, nVars⟩]

end RowFeatureIndex

/-- Error taxonomy of the Python code, by exception class. -/
inductive SCError where
  | fileExists
  | notFound
  | valueError
  | notImplemented
  deriving DecidableEq, Repr

/-- In-memory state of a `SingleCellMemMapDataset`: the three CSR arrays, the
feature index, the `num_rows` entry of the metadata dict, and the library
version string recorded at construction. -/
structure SingleCellMemMapDataset where
  data : List Rat
  col_index : List Nat
  row_index : List Nat
  feature_index : List FeatureBlock
  metadata_num_rows : Option Nat
  version : String
  deriving DecidableEq, Repr

/-- The version string `importlib.metadata.version("bionemo.scdl")`; every
instance constructed in one process records the same string. -/
def libraryVersion : String := "bionemo.scdl"

/-- `_pad_sparse_array` inner loop: `ret[col] = row_values[row_ptr]` for each
entry in turn, starting from a zero array `acc`.  A column id outside the
array raises `IndexError` in numpy (`none` here); extra column entries beyond
`row_values` are never read, and a missing column entry is an `IndexError`
(`none`). -/
def padLoop (vals : List Rat) (cols : List Nat) (acc : List Rat) : Option (List Rat) :=
  match vals, cols with
  | [], _ => some acc
  | v :: vs, c :: cs => if c < acc.length then padLoop vs cs (acc.set c v) else none
  | _ :: _, [] => none

/-- `_pad_sparse_array(row_values, row_col_ptr, n_cols)`: a dense zero array of
length `n_cols` with `ret[row_col_ptr[i]] = row_values[i]` for each stored
entry. -/
def pad_sparse_array (rowValues : List Rat) (rowColPtr : List Nat) (nCols : Nat) :
    Option (List Rat) :=
  padLoop rowValues rowColPtr (List.replicate nCols (0 : Rat))

namespace SingleCellMemMapDataset

/-- `number_nonzero_values`: `self.data.size`. -/
def number_nonzero_values (s : SingleCellMemMapDataset) : Nat :=
  s.data.length

/-- The value `number_of_rows` returns when its consistency check passes:
`self._feature_index.number_of_rows()`. -/
def numberOfRowsVal (s : SingleCellMemMapDataset) : Nat :=
  RowFeatureIndex.number_of_rows s.feature_index

/-- `number_of_rows`: raises `ValueError` when the feature index is non-empty
and its row count disagrees with `row_index.size - 1`, else returns the
feature index's row count. -/
def number_of_rows (s : SingleCellMemMapDataset) : Except SCError Nat :=
  if s.feature_index.length > 0 ∧
      RowFeatureIndex.number_of_rows s.feature_index ≠ s.row_index.length - 1 then
    .error .valueError
  else
    .ok (RowFeatureIndex.number_of_rows s.feature_index)

/-- `__len__`: `self.number_of_rows()`. -/
def scLen (s : SingleCellMemMapDataset) : Except SCError Nat :=
  number_of_rows s

/-- `number_of_values`: `sum(self._feature_index.number_of_values())`. -/
def number_of_values (s : SingleCellMemMapDataset) : Nat :=
  (RowFeatureIndex.number_of_values s.feature_index).sum

/-- `get_row(index)` (without the optional feature lookup): the half-open
slices `data[row_index[index]:row_index[index+1]]` and the matching
`col_index` slice.  numpy slicing clips at the array end and yields an empty
slice when the start is at least the end, which `drop`/`take` mirror. -/
def get_row (s : SingleCellMemMapDataset) (index : Nat) : List Rat × List Nat :=
  let start := s.row_index.getD index 0
  let stop := s.row_index.getD (index + 1) 0
  ((s.data.drop start).take (stop - start), (s.col_index.drop start).take (stop - start))

/-- `get_row_padded(index)`: pads `get_row` out to
`self._feature_index.number_vars_at_row(index)` columns. -/
def get_row_padded (s : SingleCellMemMapDataset) (index : Nat) : Option (List Rat) :=
  pad_sparse_array (get_row s index).1 (get_row s index).2
    (RowFeatureIndex.number_vars_at_row s.feature_index index)

/-- The scan inside `get_row_column`: walk the row's stored column ids in
order; return the paired value on an exact match; on the first id strictly
greater than the target, break out (the raised `ValueError` is caught
immediately) and fall through to the default; at the end of the row fall
through to the default `0.0` / `None`.  The value and column slices of a row
always have equal length, so the two lists are consumed in lockstep. -/
def getRowColumnGo (vals : List Rat) (cols : List Nat) (column : Nat)
    (imputeMissingZeros : Bool) : Option Rat :=
  match vals, cols with
  | v :: vs, c :: cs =>
    if c = column then some v
    else if column < c then (if imputeMissingZeros then some 0 else none)
    else getRowColumnGo vs cs column imputeMissingZeros
  | _, _ => if imputeMissingZeros then some 0 else none

/-- `get_row_column(index, column, impute_missing_zeros)`.  When `column` is
`None` the body after the `if column is not None` guard is skipped and the
function returns Python's implicit `None`. -/
def get_row_column (s : SingleCellMemMapDataset) (index : Nat) (column : Option Nat)
    (imputeMissingZeros : Bool) : Option Rat :=
  match column with
  | none => none
  | some c => getRowColumnGo (get_row s index).1 (get_row s index).2 c imputeMissingZeros

end SingleCellMemMapDataset

/-- `arr[start : start + len(vals)] = vals`, the numpy slice-assignment used
throughout ingestion and concatenation.  The callers always satisfy
`start + vals.length ≤ arr.length` (numpy raises a broadcast error
otherwise); theorems carry that bound as a hypothesis. -/
def writeSlice {α : Type} (arr : List α) (start : Nat) (vals : List α) : List α :=
  arr.take start ++ vals ++ arr.drop (start + vals.length)

/-- `_create_compressed_sparse_row_memmaps(num_elements, num_rows, ...)`:
rejects non-positive shapes with `ValueError`, then creates the three
zero-initialized arrays (`np.memmap` in `w+` mode zero-fills): `data` and
`col_ptr` of length `num_elements`, `row_ptr` of length `num_rows + 1`. -/
def create_compressed_sparse_row_memmaps (numElements numRows : Int) :
    Except SCError (List Rat × List Nat × List Nat) :=
  if numElements ≤ 0 then .error .valueError
  else if numRows ≤ 0 then .error .valueError
  else
    .ok (List.replicate numElements.toNat (0 : Rat),
      List.replicate numElements.toNat 0,
      List.replicate (numRows.toNat + 1) 0)

/-- On-disk state of one store directory (`data_path`): which files exist and
what they hold.  `version.json` is written once at creation; `metadata.json`
holds the optional `num_rows` entry; `features` serializes the feature index;
the three array files hold the memmapped arrays.  `dtypes.json` carries no
information the claims observe and is elided. -/
structure StoreDir where
  path_exists : Bool
  version_file : Option String
  metadata_file : Option (Option Nat)
  features_file : Option (List FeatureBlock)
  data_file : Option (List Rat)
  row_file : Option (List Nat)
  col_file : Option (List Nat)
  deriving DecidableEq, Repr

namespace SingleCellMemMapDataset

/-- `load(stored_path)`: requires the directory to exist and `metadata.json`
to exist (both `FileNotFoundError` otherwise); the feature index defaults to
empty when its file is absent; then memmaps the three arrays, each missing
array file being a `FileNotFoundError` (`_load_mmap_file_if_exists`). -/
def load (dir : StoreDir) : Except SCError SingleCellMemMapDataset :=
  if ¬dir.path_exists then .error .notFound
  else
    match dir.metadata_file with
    | none => .error .notFound
    | some md =>
      match dir.data_file, dir.row_file, dir.col_file with
      | some d, some r, some c =>
        .ok { data := d
              col_index := c
              row_index := r
              feature_index := dir.features_file.getD []
              metadata_num_rows := md
              version := libraryVersion }
      | _, _, _ => .error .notFound

/-- `save()`: records `num_rows` in the metadata if absent (via
`number_of_rows()`, whose consistency check can raise), writes
`metadata.json` and the feature index, verifies that the version marker and
the three array files exist from creation (the features file was just
written), and flushes the three memmapped arrays to their files. -/
def save (s : SingleCellMemMapDataset) (dir : StoreDir) :
    Except SCError (SingleCellMemMapDataset × StoreDir) := do
  let s' ← match s.metadata_num_rows with
    | some _ => .ok s
    | none => (number_of_rows s).map fun n => { s with metadata_num_rows := some n }
  let dir1 : StoreDir :=
    { dir with metadata_file := some s'.metadata_num_rows
               features_file := some s'.feature_index }
  if dir1.version_file.isNone ∨ dir1.data_file.isNone ∨ dir1.col_file.isNone ∨
      dir1.row_file.isNone ∨ dir1.features_file.isNone then
    .error .notFound
  else
    .ok (s', { dir1 with data_file := some s'.data
                         row_file := some s'.row_index
                         col_file := some s'.col_index })

end SingleCellMemMapDataset

/-- An external AnnData archive as `load_h5ad` observes it: existence, whether
its matrix is a `scipy.sparse.spmatrix`, its shape, and the CSR triple of its
count data (the raw count layer when present, else the primary matrix —
modelled directly as the selected triple). -/
structure H5adSource where
  path_exists : Bool
  is_sparse : Bool
  n_obs : Nat
  n_vars : Nat
  csr_data : List Rat
  csr_indices : List Nat
  csr_indptr : List Nat
  deriving DecidableEq, Repr

namespace SingleCellMemMapDataset

/-- `load_h5ad(anndata_path)`: missing path is a `FileNotFoundError`; a dense
matrix is a `NotImplementedError`; then a feature block of `n_obs` rows and
`n_vars` features is appended to the (fresh) index, arrays sized to the
source's non-zero count and row count are allocated (`_init_arrs`, which
rejects empty shapes with `ValueError`), the source's CSR triple is copied in
verbatim, and the store is saved. -/
def load_h5ad (src : H5adSource) :
    Except SCError (SingleCellMemMapDataset × StoreDir) :=
  if ¬src.path_exists then .error .notFound
  else if ¬src.is_sparse then .error .notImplemented
  else
    let nnz := src.csr_data.length
    match create_compressed_sparse_row_memmaps (nnz : Int) (src.n_obs : Int) with
    | .error e => .error e
    | .ok (d0, c0, r0) =>
      let s : SingleCellMemMapDataset :=
        { data := writeSlice d0 0 src.csr_data
          col_index := writeSlice c0 0 src.csr_indices
          row_index := writeSlice r0 0 src.csr_indptr
          feature_index := RowFeatureIndex.append_features [] src.n_obs src.n_vars
          metadata_num_rows := none
          version := libraryVersion }
      let dir : StoreDir :=
        { path_exists := true
          version_file := some libraryVersion
          metadata_file := none
          features_file := none
          data_file := some s.data
          row_file := some s.row_index
          col_file := some s.col_index }
      save s dir

end SingleCellMemMapDataset

/-- File-open modes of the dataset (`Mode` enum). -/
inductive SCMode where
  | createAppend
  | readAppend
  | read
  | create
  deriving DecidableEq, Repr

/-- `SingleCellMemMapDataset.__init__(data_path, h5ad_path, num_elements,
num_rows, mode)`.  `dir.path_exists` models `os.path.exists(data_path)`; in
this codebase `data_path` is always a string, so the `data_path is not None`
conjunct always holds.  The checks fire in source order: create mode over an
existing directory, then the ambiguous store+h5ad combination, then loading
an existing store, then h5ad ingestion, then fresh allocation when both
counts are integers, else a configuration `ValueError`. -/
def scInit (dir : StoreDir) (h5ad : Option H5adSource)
    (numElements numRows : Option Int) (mode : SCMode) :
    Except SCError (SingleCellMemMapDataset × StoreDir) :=
  if mode = SCMode.createAppend ∧ dir.path_exists then .error .fileExists
  else if h5ad.isSome ∧ dir.path_exists then .error .fileExists
  else if dir.path_exists then
    (SingleCellMemMapDataset.load dir).map fun s => (s, dir)
  else
    match h5ad with
    | some src => SingleCellMemMapDataset.load_h5ad src
    | none =>
      match numRows, numElements with
      | some r, some e =>
        match create_compressed_sparse_row_memmaps e r with
        | .error er => .error er
        | .ok (d, c, rI) =>
          .ok ({ data := d
                 col_index := c
                 row_index := rI
                 feature_index := []
                 metadata_num_rows := none
                 version := libraryVersion },
               { path_exists := true
                 version_file := some libraryVersion
                 metadata_file := none
                 features_file := none
                 data_file := some d
                 row_file := some rI
                 col_file := some c })
      | _, _ => .error .valueError

/-- A flat file system for `_swap_mmap_array`: paths mapped to raw file
contents (byte blobs, modelled as lists). -/
abbrev FileSys := List (String × List Nat)

/-- `os.path.isfile` over the modelled file system. -/
def fsLookup (fs : FileSys) (p : String) : Option (List Nat) :=
  match fs.find? (fun e => e.1 = p) with
  | some e => some e.2
  | none => none

/-- `os.remove`. -/
def fsErase (fs : FileSys) (p : String) : FileSys :=
  fs.filter (fun e => e.1 ≠ p)

/-- Creating/overwriting a file. -/
def fsInsert (fs : FileSys) (p : String) (b : List Nat) : FileSys :=
  (p, b) :: fsErase fs p

/-- `shutil.move src dst` for files that exist (the only way it is called). -/
def fsMove (fs : FileSys) (src dst : String) : FileSys :=
  match fsLookup fs src with
  | some b => fsInsert (fsErase fs src) dst b
  | none => fs

/-- `_swap_mmap_array(src_array, src_path, dest_array, dest_path,
destroy_src)`: raises `FileNotFoundError` unless both paths are files, and
only then performs the three-way rename through a fresh temporary name
(`tmpPath`), finally removing the source file when `destroy_src`.  Returned
as (raised error, resulting file system). -/
def swap_mmap_array (fs : FileSys) (srcPath destPath tmpPath : String)
    (destroySrc : Bool) : Option SCError × FileSys :=
  if (fsLookup fs srcPath).isNone then (some .notFound, fs)
  else if (fsLookup fs destPath).isNone then (some .notFound, fs)
  else
    let fs1 := fsMove fs srcPath tmpPath
    let fs2 := fsMove fs1 destPath srcPath
    let fs3 := fsMove fs2 tmpPath destPath
    (none, if destroySrc then fsErase fs3 srcPath else fs3)

/-- Mutable state of the `concat` copy loop: the three freshly allocated
destination arrays and the `cumulative_elements` / `cumulative_rows`
counters, together with `self`'s feature index being extended in place. -/
structure ConcatState where
  data_arr : List Rat
  col_arr : List Nat
  row_arr : List Nat
  cumulative_elements : Nat
  cumulative_rows : Nat
  fi : List FeatureBlock
  deriving DecidableEq, Repr

namespace SingleCellMemMapDataset

/-- One iteration of the `for mmap in mmaps` loop of `concat`: copy the
input's data and column arrays at offset `cumulative_elements`, copy its
row-pointer array at offset `cumulative_rows` with every pointer value
shifted by `cumulative_rows` (`mmap.row_index + int(cumulative_rows)`),
extend the feature index, and advance both counters. -/
def concatStep (st : ConcatState) (m : SingleCellMemMapDataset) : ConcatState :=
  { data_arr := writeSlice st.data_arr st.cumulative_elements m.data
    col_arr := writeSlice st.col_arr st.cumulative_elements m.col_index
    row_arr := writeSlice st.row_arr st.cumulative_rows
      (m.row_index.map (fun p => p + st.cumulative_rows))
    cumulative_elements := st.cumulative_elements + m.number_nonzero_values
    cumulative_rows := st.cumulative_rows + m.numberOfRowsVal
    fi := RowFeatureIndex.concat st.fi m.feature_index }

/-- The state of `concat` before the loop: three zero-initialized arrays of
the combined sizes, with `self`'s own segments copied at offset zero when
`self.number_of_rows() > 0` (row pointers unshifted), counters advanced
accordingly. -/
def concatInit (a : SingleCellMemMapDataset) (totalE totalR : Nat) : ConcatState :=
  let d0 := List.replicate totalE (0 : Rat)
  let c0 := List.replicate totalE 0
  let r0 := List.replicate (totalR + 1) 0
  if 0 < a.numberOfRowsVal then
    { data_arr := writeSlice d0 0 a.data
      col_arr := writeSlice c0 0 a.col_index
      row_arr := writeSlice r0 0 a.row_index
      cumulative_elements := a.number_nonzero_values
      cumulative_rows := a.numberOfRowsVal
      fi := a.feature_index }
  else
    { data_arr := d0, col_arr := c0, row_arr := r0
      cumulative_elements := 0, cumulative_rows := 0, fi := a.feature_index }

/-- The `for mmap in mmaps` loop of `concat`, in supplied list order. -/
def concatLoop (st : ConcatState) (ms : List SingleCellMemMapDataset) : ConcatState :=
  ms.foldl concatStep st

/-- `total_num_elements` of `concat`: `self`'s non-zero count when `self` has
rows (else `0`) plus the inputs' non-zero counts. -/
def totalElements (a : SingleCellMemMapDataset) (others : List SingleCellMemMapDataset) : Nat :=
  (if 0 < a.numberOfRowsVal then a.number_nonzero_values else 0) +
    (others.map number_nonzero_values).sum

/-- `total_num_rows` of `concat`. -/
def totalRows (a : SingleCellMemMapDataset) (others : List SingleCellMemMapDataset) : Nat :=
  a.numberOfRowsVal + (others.map numberOfRowsVal).sum

/-- The loop state of `concat` after `self`'s segments and the first `t`
inputs have been copied. -/
def concatPrefixState (a : SingleCellMemMapDataset)
    (others : List SingleCellMemMapDataset) (t : Nat) : ConcatState :=
  concatLoop (concatInit a (totalElements a others) (totalRows a others)) (others.take t)

/-- `concat(other_dataset)` with a list argument (a single dataset is wrapped
into a one-element list by the code).  Any version mismatch is a
`ValueError`.  New arrays of the combined size are allocated in a temporary
directory, filled by `concatInit`/`concatLoop`, swapped into `self`'s file
paths, and reopened with shapes `(cumulative_elements,)` and
`(cumulative_rows + 1,)` — modelled by truncating to those lengths.  The
final `save()` records `num_rows` in the metadata only when it was absent
(using the consistency-checked `number_of_rows()`, which succeeds for the
well-formed stores concat is run on, with the feature-index row count as its
value). -/
def concat (a : SingleCellMemMapDataset) (others : List SingleCellMemMapDataset) :
    Except SCError SingleCellMemMapDataset :=
  if others.any (fun d => d.version ≠ a.version) then .error .valueError
  else
    let st := concatLoop (concatInit a (totalElements a others) (totalRows a others)) others
    .ok { data := st.data_arr.take st.cumulative_elements
          col_index := st.col_arr.take st.cumulative_elements
          row_index := st.row_arr.take (st.cumulative_rows + 1)
          feature_index := st.fi
          metadata_num_rows :=
            some (a.metadata_num_rows.getD (RowFeatureIndex.number_of_rows st.fi))
          version := a.version }

end SingleCellMemMapDataset

/-- A store is well formed when its arrays satisfy the CSR layout the code's
own comments document: `data` and `col_index` have equal length, `row_index`
has one entry per row plus one, starts at `0`, ends at the stored element
count, and is non-decreasing. -/
structure WellFormed (s : SingleCellMemMapDataset) : Prop where
  col_len : s.col_index.length = s.data.length
  row_len : s.row_index.length = s.numberOfRowsVal + 1
  first : s.row_index.getD 0 0 = 0
  last : s.row_index.getD s.numberOfRowsVal 0 = s.data.length
  mono : ∀ i j, i ≤ j → j < s.row_index.length →
    s.row_index.getD i 0 ≤ s.row_index.getD j 0

/-- The row-pointer invariant of a CSR array: starts at zero, ends at the
stored element count `nnz`, non-decreasing. -/
def RowPtrInvariant (rowIndex : List Nat) (nnz : Nat) : Prop :=
  rowIndex.getD 0 0 = 0 ∧
  rowIndex.getD (rowIndex.length - 1) 0 = nnz ∧
  ∀ j, j < rowIndex.length → ∀ i, i ≤ j → rowIndex.getD i 0 ≤ rowIndex.getD j 0

/-! Concrete stores and sources used by counterexamples and witnesses. -/

/-- The ingestion scenario of the spec (3 rows over a 5-column schema, 5
stored entries): row 0 holds `{1: 5.0, 3: 2.0}`, row 1 is empty, row 2 holds
`{0: 1.0, 2: 4.0, 4: 9.0}`. -/
def scenSrc : H5adSource :=
  { path_exists := true, is_sparse := true, n_obs := 3, n_vars := 5,
    csr_data := [5, 2, 1, 4, 9], csr_indices := [1, 3, 0, 2, 4], csr_indptr := [0, 2, 2, 5] }

/-- The store `load_h5ad scenSrc` produces (after its final `save`). -/
def scenStore : SingleCellMemMapDataset :=
  { data := [5, 2, 1, 4, 9]
    col_index := [1, 3, 0, 2, 4]
    row_index := [0, 2, 2, 5]
    feature_index := [⟨3, 5⟩]
    metadata_num_rows := some 3
    version := libraryVersion }

/-- The on-disk state `load_h5ad scenSrc` leaves behind. -/
def scenDir : StoreDir :=
  { path_exists := true
    version_file := some libraryVersion
    metadata_file := some (some 3)
    features_file := some [⟨3, 5⟩]
    data_file := some [5, 2, 1, 4, 9]
    row_file := some [0, 2, 2, 5]
    col_file := some [1, 3, 0, 2, 4] }

/-- A one-row store with two stored entries (its non-zero count differs from
its row count). -/
def exA : SingleCellMemMapDataset :=
  { data := [5, 7], col_index := [1, 3], row_index := [0, 2],
    feature_index := [⟨1, 5⟩], metadata_num_rows := some 1, version := libraryVersion }

/-- A one-row store with one stored entry. -/
def exB : SingleCellMemMapDataset :=
  { data := [9], col_index := [0], row_index := [0, 1],
    feature_index := [⟨1, 5⟩], metadata_num_rows := some 1, version := libraryVersion }

/-- A two-row store with five stored entries; concatenating anything onto it
produces a row-pointer array that is not even monotone. -/
def exC : SingleCellMemMapDataset :=
  { data := [1, 2, 3, 4, 5], col_index := [0, 1, 2, 0, 1], row_index := [0, 3, 5],
    feature_index := [⟨2, 3⟩], metadata_num_rows := some 2, version := libraryVersion }

/-- A one-row store whose stored column ids are not sorted ascending:
column 5 precedes column 3. -/
def exU : SingleCellMemMapDataset :=
  { data := [5, 7], col_index := [5, 3], row_index := [0, 2],
    feature_index := [⟨1, 6⟩], metadata_num_rows := some 1, version := libraryVersion }

/-- A file system holding only the destination array file. -/
def swapFS : FileSys := [("scmmap/data.npy", [1, 2, 3])]

/-- A store directory that does not exist on disk. -/
def absentDir : StoreDir :=
  { path_exists := false, version_file := none, metadata_file := none,
    features_file := none, data_file := none, row_file := none, col_file := none }

/-- An existing store directory that lacks `metadata.json`. -/
def noMetadataDir : StoreDir :=
  { path_exists := true, version_file := some libraryVersion, metadata_file := none,
    features_file := some [⟨3, 5⟩], data_file := some [5, 2, 1, 4, 9],
    row_file := some [0, 2, 2, 5], col_file := some [1, 3, 0, 2, 4] }

/-! ## Helper lemmas -/

theorem writeSlice_length {α : Type} (arr vals : List α) (start : Nat)
    (h : start + vals.length ≤ arr.length) :
    (writeSlice arr start vals).length = arr.length := by
  simp only [writeSlice, List.length_append, List.length_take, List.length_drop]
  omega

theorem writeSlice_zero_full {α : Type} (arr vals : List α) (h : vals.length = arr.length) :
    writeSlice arr 0 vals = vals := by
  simp [writeSlice, h, List.drop_length]

theorem getD_writeSlice_inside {α : Type} (arr vals : List α) (start j : Nat) (d : α)
    (hstart : start ≤ arr.length) (hj : j < vals.length) :
    (writeSlice arr start vals).getD (start + j) d = vals.getD j d := by
  unfold writeSlice
  have htake : (arr.take start).length = start := by
    simp [List.length_take, Nat.min_eq_left hstart]
  rw [List.getD_append _ _ _ _ (by simp only [List.length_append, htake]; omega),
    List.getD_append_right _ _ _ _ (by omega), htake, Nat.add_sub_cancel_left]

theorem getD_set_self_of_lt {α : Type} (l : List α) (i : Nat) (a d : α) (h : i < l.length) :
    (l.set i a).getD i d = a := by
  rw [List.getD_eq_getElem _ _ (by simpa using h)]
  simp

theorem getD_set_ne {α : Type} (l : List α) (i j : Nat) (a d : α) (h : i ≠ j) :
    (l.set i a).getD j d = l.getD j d := by
  by_cases hj : j < l.length
  · rw [List.getD_eq_getElem _ _ (by simpa using hj), List.getD_eq_getElem _ _ hj]
    simp [List.getElem_set_ne h]
  · rw [List.getD_eq_default _ _ (by simpa using Nat.le_of_not_lt hj),
      List.getD_eq_default _ _ (Nat.le_of_not_lt hj)]

theorem getD_replicate_zero (n c : Nat) : (List.replicate n (0 : Rat)).getD c 0 = 0 := by
  by_cases hc : c < n
  · rw [List.getD_eq_getElem _ _ (by simpa using hc)]
    simp
  · rw [List.getD_eq_default _ _ (by simpa using Nat.le_of_not_lt hc)]

theorem sum_map_take_le {α : Type} (f : α → Nat) (l : List α) (t : Nat) :
    ((l.take t).map f).sum ≤ (l.map f).sum := by
  conv_rhs => rw [← List.take_append_drop t l]
  rw [List.map_append, List.sum_append]
  exact Nat.le_add_right _ _

theorem sum_map_take_succ {α : Type} (f : α → Nat) (l : List α) (t : Nat) (m : α)
    (hm : l.get? t = some m) :
    ((l.take (t + 1)).map f).sum = ((l.take t).map f).sum + f m := by
  rw [List.take_succ]
  have : l[t]? = some m := by simpa [← List.get?_eq_getElem?] using hm
  simp [this]

theorem get_row_fst_length_eq (s : SingleCellMemMapDataset)
    (hlen : s.col_index.length = s.data.length) (i : Nat) :
    (s.get_row i).1.length = (s.get_row i).2.length := by
  simp [SingleCellMemMapDataset.get_row, hlen]

theorem padLoop_length (vals : List Rat) (cols : List Nat) (acc out : List Rat)
    (h : padLoop vals cols acc = some out) : out.length = acc.length := by
  induction vals generalizing cols acc with
  | nil =>
    unfold padLoop at h
    cases h
    rfl
  | cons v vs ih =>
    cases cols with
    | nil => simp [padLoop] at h
    | cons c cs =>
      unfold padLoop at h
      split at h
      · rw [ih cs (acc.set c v) h]
        exact List.length_set acc c v
      · cases h

theorem padLoop_isSome (vals : List Rat) (cols : List Nat) (acc : List Rat)
    (hlen : vals.length ≤ cols.length) (hb : ∀ c ∈ cols, c < acc.length) :
    ∃ out, padLoop vals cols acc = some out := by
  induction vals generalizing cols acc with
  | nil => exact ⟨acc, rfl⟩
  | cons v vs ih =>
    cases cols with
    | nil => simp at hlen
    | cons c cs =>
      have hc : c < acc.length := hb c (List.mem_cons_self c cs)
      have ⟨out, hout⟩ := ih cs (acc.set c v) (by simpa using hlen)
        (fun x hx => by rw [List.length_set]; exact hb x (List.mem_cons_of_mem c hx))
      exact ⟨out, by unfold padLoop; rw [if_pos hc]; exact hout⟩

theorem padLoop_getD_notMem (vals : List Rat) (cols : List Nat) (acc out : List Rat)
    (hlen : vals.length = cols.length) (c : Nat) (hc : c ∉ cols)
    (h : padLoop vals cols acc = some out) :
    out.getD c 0 = acc.getD c 0 := by
  induction vals generalizing cols acc with
  | nil =>
    unfold padLoop at h
    cases h
    rfl
  | cons v vs ih =>
    cases cols with
    | nil => simp at hlen
    | cons c0 cs =>
      unfold padLoop at h
      split at h
      · have hne : c0 ≠ c := fun he => hc (he ▸ List.mem_cons_self c0 cs)
        rw [ih cs (acc.set c0 v) (by simpa using hlen)
          (fun hm => hc (List.mem_cons_of_mem c0 hm)) h]
        exact getD_set_ne acc c0 c v 0 hne
      · cases h

theorem padLoop_getD_entry (vals : List Rat) (cols : List Nat) (acc out : List Rat)
    (hlen : vals.length = cols.length) (hnd : cols.Nodup) (k : Nat) (hk : k < cols.length)
    (h : padLoop vals cols acc = some out) :
    out.getD (cols.getD k 0) 0 = vals.getD k 0 := by
  induction vals generalizing cols acc k with
  | nil =>
    rw [← hlen] at hk
    simp at hk
  | cons v vs ih =>
    cases cols with
    | nil => simp at hlen
    | cons c0 cs =>
      unfold padLoop at h
      split at h
      · rename_i hlt
        cases k with
        | zero =>
          have hnotin : c0 ∉ cs := (List.nodup_cons.mp hnd).1
          rw [List.getD_cons_zero, List.getD_cons_zero,
            padLoop_getD_notMem vs cs (acc.set c0 v) out (by simpa using hlen) c0 hnotin h,
            getD_set_self_of_lt acc c0 v 0 hlt]
        | succ k =>
          rw [List.getD_cons_succ, List.getD_cons_succ]
          exact ih cs (acc.set c0 v) (by simpa using hlen) (List.nodup_cons.mp hnd).2
            k (by simpa using hk) h
      · cases h

theorem getRowColumnGo_found (vals : List Rat) (cols : List Nat) (column : Nat)
    (impute : Bool) (hlen : vals.length = cols.length) (k : Nat) (hk : k < cols.length)
    (hcol : cols.getD k 0 = column) (hbefore : ∀ j, j < k → cols.getD j 0 < column) :
    SingleCellMemMapDataset.getRowColumnGo vals cols column impute = some (vals.getD k 0) := by
  induction vals generalizing cols k with
  | nil =>
    rw [← hlen] at hk
    simp at hk
  | cons v vs ih =>
    cases cols with
    | nil => simp at hlen
    | cons c cs =>
      cases k with
      | zero =>
        rw [List.getD_cons_zero] at hcol
        unfold SingleCellMemMapDataset.getRowColumnGo
        rw [if_pos hcol]
        rfl
      | succ k =>
        have h0 : c < column := by simpa using hbefore 0 (Nat.succ_pos k)
        unfold SingleCellMemMapDataset.getRowColumnGo
        rw [if_neg (Nat.ne_of_lt h0), if_neg (by omega)]
        rw [List.getD_cons_succ]
        exact ih cs (by simpa using hlen) k (by simpa using hk) (by simpa using hcol)
          (fun j hj => by simpa using hbefore (j + 1) (by omega))

theorem getRowColumnGo_notMem (vals : List Rat) (cols : List Nat) (column : Nat)
    (impute : Bool) (h : column ∉ cols) :
    SingleCellMemMapDataset.getRowColumnGo vals cols column impute = (if impute then some (0 : Rat) else none) := by
  induction vals generalizing cols with
  | nil => cases cols <;> rfl
  | cons v vs ih =>
    cases cols with
    | nil => rfl
    | cons c cs =>
      have hc : c ≠ column := fun he => h (he ▸ List.mem_cons_self c cs)
      unfold SingleCellMemMapDataset.getRowColumnGo
      rw [if_neg hc]
      by_cases hgt : column < c
      · rw [if_pos hgt]
      · rw [if_neg hgt]
        exact ih cs (fun hm => h (List.mem_cons_of_mem c hm))

/-! ## Claim theorems -/

/-- C1.  `concat` does not preserve `get_row`: for stores A (1 row, 2 stored
entries) and B (1 row, 1 stored entry) with equal versions, `A.concat([B])`
yields a store with `m+n = 2` rows (3 row pointers), yet `get_row(0)` returns
`([5],[1])` instead of A's pre-concat `([5,7],[1,3])` and `get_row(1)`
returns `([7],[3])` instead of B's pre-concat `([9],[0])`: the loop shifts
copied row pointers by `cumulative_rows` where the CSR layout (see the
allocator's own comment) requires a shift by `cumulative_elements`. -/
theorem concat_misshifts_row_pointers :
    exA.numberOfRowsVal = 1 ∧ exB.numberOfRowsVal = 1 ∧
    (exA.concat [exB]).toOption.map
        (fun s => (s.row_index.length, s.get_row 0, s.get_row 1)) =
      some (3, (([5], [1]) : List Rat × List Nat), (([7], [3]) : List Rat × List Nat)) ∧
    exA.get_row 0 = (([5, 7], [1, 3]) : List Rat × List Nat) ∧
    exB.get_row 0 = (([9], [0]) : List Rat × List Nat) ∧
    (exA.concat [exB]).toOption.map (fun s => s.get_row 0) ≠ some (exA.get_row 0) ∧
    (exA.concat [exB]).toOption.map (fun s => s.get_row 1) ≠ some (exB.get_row 0) := by
  decide

/-- C4 counterexample.  In a row whose stored column ids are not sorted
(`[5, 3]`), `get_row_column(0, 3)` returns the imputed `0.0` (or `None`)
although column 3 is present with stored value 7: the scan breaks out at the
first id greater than the target. -/
theorem get_row_column_unsorted_miss :
    exU.get_row 0 = (([5, 7], [5, 3]) : List Rat × List Nat) ∧
    (3 : Nat) ∈ (exU.get_row 0).2 ∧
    exU.get_row_column 0 (some 3) true = some 0 ∧
    exU.get_row_column 0 (some 3) false = none ∧
    exU.get_row_column 0 (some 3) true ≠ some 7 := by
  decide

/-- C4 (amended).  `get_row_column(index, column)` returns the stored value
when `column` occurs at a position all of whose predecessors hold ids
strictly smaller than `column` (in particular always, when the row is sorted
ascending); when `column` is absent from the row altogether it returns `0.0`
if `impute_missing_zeros` else `None`.  (A match preceded by a larger id is
missed — the counterexample.) -/
theorem get_row_column_scan_spec (s : SingleCellMemMapDataset)
    (hlen : s.col_index.length = s.data.length) (i : Nat) (column : Nat) (impute : Bool) :
    (∀ k, k < (s.get_row i).2.length → (s.get_row i).2.getD k 0 = column →
      (∀ j, j < k → (s.get_row i).2.getD j 0 < column) →
      s.get_row_column i (some column) impute = some ((s.get_row i).1.getD k 0)) ∧
    (column ∉ (s.get_row i).2 →
      s.get_row_column i (some column) impute = (if impute then some (0 : Rat) else none)) := by
  constructor
  · intro k hk hcol hbefore
    exact getRowColumnGo_found (s.get_row i).1 (s.get_row i).2 column impute
      (get_row_fst_length_eq s hlen i) k hk hcol hbefore
  · intro hmem
    exact getRowColumnGo_notMem (s.get_row i).1 (s.get_row i).2 column impute hmem

theorem get_row_column_scan_spec_witness :
    scenStore.col_index.length = scenStore.data.length ∧
    scenStore.get_row_column 2 (some 2) true = some ((scenStore.get_row 2).1.getD 1 0) ∧
    scenStore.get_row_column 2 (some 3) false = none := by
  refine ⟨rfl, ?_, ?_⟩
  · exact (get_row_column_scan_spec scenStore rfl 2 2 true).1 1 (by decide) (by decide)
      (by decide)
  · have h := (get_row_column_scan_spec scenStore rfl 2 3 false).2 (by decide)
    simpa using h

/-- C9.  For a valid row index, `get_row_column(index, None)` returns `None`
for both values of `impute_missing_zeros`: the whole lookup body is guarded
by `if column is not None`. -/
theorem get_row_column_none_returns_none (s : SingleCellMemMapDataset) (i : Nat)
    (hi : i < s.numberOfRowsVal) :
    s.get_row_column i none true = none ∧ s.get_row_column i none false = none :=
  ⟨rfl, rfl⟩

theorem get_row_column_none_returns_none_witness :
    0 < scenStore.numberOfRowsVal ∧
    scenStore.get_row_column 0 none true = none ∧
    scenStore.get_row_column 0 none false = none :=
  ⟨by decide, get_row_column_none_returns_none scenStore 0 (by decide)⟩

/-- C7.  Constructor error handling: fresh mode with `num_elements <= 0` or
`num_rows <= 0` raises `ValueError`; an existing store path combined with an
h5ad path raises `FileExistsError` (whatever the mode); loading an existing
directory that lacks `metadata.json` raises `FileNotFoundError`. -/
theorem init_rejects_malformed_input :
    (∀ (dir : StoreDir) (e r : Int), dir.path_exists = false → e ≤ 0 ∨ r ≤ 0 →
      scInit dir none (some e) (some r) SCMode.readAppend = .error .valueError) ∧
    (∀ (dir : StoreDir) (src : H5adSource) (numE numR : Option Int) (mode : SCMode),
      dir.path_exists = true →
      scInit dir (some src) numE numR mode = .error .fileExists) ∧
    (∀ (dir : StoreDir) (numE numR : Option Int),
      dir.path_exists = true → dir.metadata_file = none →
      scInit dir none numE numR SCMode.readAppend = .error .notFound) := by
  refine ⟨?_, ?_, ?_⟩
  · intro dir e r hpe h
    by_cases he : e ≤ 0
    · simp [scInit, hpe, create_compressed_sparse_row_memmaps, he]
    · have hr : r ≤ 0 := h.resolve_left he
      simp [scInit, hpe, create_compressed_sparse_row_memmaps, he, hr]
  · intro dir src numE numR mode hpe
    by_cases hm : mode = SCMode.createAppend
    · simp [scInit, hpe, hm]
    · simp [scInit, hpe, hm]
  · intro dir numE numR hpe hmeta
    simp [scInit, hpe, SingleCellMemMapDataset.load, hmeta, Except.map]

theorem init_rejects_malformed_input_witness :
    absentDir.path_exists = false ∧ ((0 : Int) ≤ 0 ∨ (5 : Int) ≤ 0) ∧
    scInit absentDir none (some 0) (some 5) SCMode.readAppend = .error .valueError ∧
    noMetadataDir.path_exists = true ∧ noMetadataDir.metadata_file = none ∧
    scInit noMetadataDir (some scenSrc) none none SCMode.readAppend = .error .fileExists ∧
    scInit noMetadataDir none none none SCMode.readAppend = .error .notFound := by
  refine ⟨rfl, Or.inl (by norm_num), ?_, rfl, rfl, ?_, ?_⟩
  · exact init_rejects_malformed_input.1 absentDir 0 5 rfl (Or.inl (by norm_num))
  · exact init_rejects_malformed_input.2.1 noMetadataDir scenSrc none none _ rfl
  · exact init_rejects_malformed_input.2.2 noMetadataDir none none rfl rfl

/-- C8.  `_swap_mmap_array` raises `FileNotFoundError` when the source or the
destination path is not a file, and in that case performs no rename: the
file system is returned unchanged. -/
theorem swap_mmap_array_requires_both_files (fs : FileSys)
    (srcPath destPath tmpPath : String) (destroySrc : Bool)
    (h : fsLookup fs srcPath = none ∨ fsLookup fs destPath = none) :
    (swap_mmap_array fs srcPath destPath tmpPath destroySrc).1 = some .notFound ∧
    (swap_mmap_array fs srcPath destPath tmpPath destroySrc).2 = fs := by
  unfold swap_mmap_array
  rcases h with h | h
  · simp [h]
  · by_cases hs : fsLookup fs srcPath = none
    · simp [hs]
    · simp [hs, h]

theorem swap_mmap_array_requires_both_files_witness :
    fsLookup swapFS "tmpdir/data.npy" = none ∧
    (swap_mmap_array swapFS "tmpdir/data.npy" "scmmap/data.npy" "tmpdir/arr_temp" true).1 =
      some .notFound ∧
    (swap_mmap_array swapFS "tmpdir/data.npy" "scmmap/data.npy" "tmpdir/arr_temp" true).2 =
      swapFS :=
  ⟨rfl, swap_mmap_array_requires_both_files swapFS _ _ _ true (Or.inl rfl)⟩

/-- C10.  `number_of_rows()` (and `__len__`) return the feature index's row
count whenever they return at all; a store created fresh with positive
`num_rows`/`num_elements` and no ingested source reports length 0 even
though its allocated row-pointer array already has `num_rows + 1` entries. -/
theorem len_is_feature_index_rows :
    (∀ (s : SingleCellMemMapDataset) (n : Nat), s.number_of_rows = .ok n →
      n = RowFeatureIndex.number_of_rows s.feature_index) ∧
    (∀ (s : SingleCellMemMapDataset) (n : Nat), s.scLen = .ok n →
      n = RowFeatureIndex.number_of_rows s.feature_index) ∧
    (∀ (dir : StoreDir) (e r : Int), dir.path_exists = false → 0 < e → 0 < r →
      ∃ s d2, scInit dir none (some e) (some r) SCMode.readAppend = .ok (s, d2) ∧
        s.scLen = .ok 0 ∧ s.number_of_rows = .ok 0 ∧
        s.row_index.length = r.toNat + 1) := by
  have hrows : ∀ (s : SingleCellMemMapDataset) (n : Nat), s.number_of_rows = .ok n →
      n = RowFeatureIndex.number_of_rows s.feature_index := by
    intro s n h
    unfold SingleCellMemMapDataset.number_of_rows at h
    split at h
    · cases h
    · cases h
      rfl
  refine ⟨hrows, hrows, ?_⟩
  intro dir e r hpe he hr
  refine ⟨{ data := List.replicate e.toNat 0, col_index := List.replicate e.toNat 0,
            row_index := List.replicate (r.toNat + 1) 0, feature_index := [],
            metadata_num_rows := none, version := libraryVersion },
          { path_exists := true, version_file := some libraryVersion, metadata_file := none,
            features_file := none, data_file := some (List.replicate e.toNat 0),
            row_file := some (List.replicate (r.toNat + 1) 0),
            col_file := some (List.replicate e.toNat 0) }, ?_, rfl, rfl, by simp⟩
  simp [scInit, hpe, create_compressed_sparse_row_memmaps, Int.not_le.mpr he, Int.not_le.mpr hr]

theorem len_is_feature_index_rows_witness :
    scenStore.number_of_rows = .ok 3 ∧
    (3 : Nat) = RowFeatureIndex.number_of_rows scenStore.feature_index ∧
    absentDir.path_exists = false ∧ (0 : Int) < 4 ∧ (0 : Int) < 3 ∧
    ∃ s d2, scInit absentDir none (some 4) (some 3) SCMode.readAppend = .ok (s, d2) ∧
      s.scLen = .ok 0 ∧ s.number_of_rows = .ok 0 ∧ s.row_index.length = (3 : Int).toNat + 1 :=
  ⟨rfl, len_is_feature_index_rows.1 scenStore 3 rfl, rfl, by norm_num, by norm_num,
    len_is_feature_index_rows.2.2 absentDir 4 3 rfl (by norm_num) (by norm_num)⟩

/-- `concatInit` starts the loop with `cumulative_rows` equal to `self`'s row
count (zero when `self` has no rows, which is the same number). -/
theorem concatInit_cumulative_rows (a : SingleCellMemMapDataset) (totalE totalR : Nat) :
    (SingleCellMemMapDataset.concatInit a totalE totalR).cumulative_rows =
      a.numberOfRowsVal := by
  unfold SingleCellMemMapDataset.concatInit
  split
  · rfl
  · rename_i hn
    simp only
    omega

theorem concatInit_row_arr_length (a : SingleCellMemMapDataset) (totalE totalR : Nat)
    (ha : a.row_index.length ≤ totalR + 1) :
    (SingleCellMemMapDataset.concatInit a totalE totalR).row_arr.length = totalR + 1 := by
  unfold SingleCellMemMapDataset.concatInit
  split
  · simp only
    rw [writeSlice_length _ _ _ (by simpa using ha)]
    simp
  · simp

theorem concatLoop_cumulative_rows (ms : List SingleCellMemMapDataset) (st : ConcatState) :
    (SingleCellMemMapDataset.concatLoop st ms).cumulative_rows =
      st.cumulative_rows + (ms.map SingleCellMemMapDataset.numberOfRowsVal).sum := by
  induction ms generalizing st with
  | nil => simp [SingleCellMemMapDataset.concatLoop]
  | cons m ms ih =>
    simp only [SingleCellMemMapDataset.concatLoop, List.foldl_cons, List.map_cons,
      List.sum_cons] at *
    rw [ih]
    simp [SingleCellMemMapDataset.concatStep]
    omega

theorem concatLoop_row_arr_length (ms : List SingleCellMemMapDataset) (st : ConcatState)
    (hwf : ∀ m ∈ ms, m.row_index.length = m.numberOfRowsVal + 1)
    (hcap : st.cumulative_rows + (ms.map SingleCellMemMapDataset.numberOfRowsVal).sum + 1 ≤
      st.row_arr.length) :
    (SingleCellMemMapDataset.concatLoop st ms).row_arr.length = st.row_arr.length := by
  induction ms generalizing st with
  | nil => rfl
  | cons m ms ih =>
    have hm := hwf m (List.mem_cons_self m ms)
    have hstep : (SingleCellMemMapDataset.concatStep st m).row_arr.length =
        st.row_arr.length := by
      simp only [SingleCellMemMapDataset.concatStep]
      rw [writeSlice_length]
      rw [List.length_map, hm]
      simp only [List.map_cons, List.sum_cons] at hcap
      omega
    simp only [SingleCellMemMapDataset.concatLoop, List.foldl_cons] at *
    rw [ih (SingleCellMemMapDataset.concatStep st m)
      (fun x hx => hwf x (List.mem_cons_of_mem m hx)) ?_, hstep]
    rw [hstep]
    simp only [SingleCellMemMapDataset.concatStep, List.map_cons, List.sum_cons] at hcap ⊢
    omega

/-- C2.  During `concat`, each input dataset (position `t` of the list) has
its row-pointer array copied into the new row-pointer array starting at the
offset equal to the cumulative row count of all previously copied sources
(`self` first, then the earlier inputs), and every copied pointer value is
shifted by exactly that cumulative row count. -/
theorem concat_copies_row_pointers_shifted
    (a : SingleCellMemMapDataset) (others : List SingleCellMemMapDataset)
    (hwfa : a.row_index.length = a.numberOfRowsVal + 1)
    (hwf : ∀ m ∈ others, m.row_index.length = m.numberOfRowsVal + 1)
    (t : Nat) (m : SingleCellMemMapDataset) (hm : others.get? t = some m) :
    (SingleCellMemMapDataset.concatPrefixState a others t).cumulative_rows =
      a.numberOfRowsVal +
        ((others.take t).map SingleCellMemMapDataset.numberOfRowsVal).sum ∧
    SingleCellMemMapDataset.concatPrefixState a others (t + 1) =
      SingleCellMemMapDataset.concatStep
        (SingleCellMemMapDataset.concatPrefixState a others t) m ∧
    ∀ j, j < m.row_index.length →
      (SingleCellMemMapDataset.concatPrefixState a others (t + 1)).row_arr.getD
          ((SingleCellMemMapDataset.concatPrefixState a others t).cumulative_rows + j) 0 =
        m.row_index.getD j 0 +
          (SingleCellMemMapDataset.concatPrefixState a others t).cumulative_rows := by
  have hmem : m ∈ others := by
    have := List.get?_mem hm
    exact this
  have hwm := hwf m hmem
  have hstep : SingleCellMemMapDataset.concatPrefixState a others (t + 1) =
      SingleCellMemMapDataset.concatStep
        (SingleCellMemMapDataset.concatPrefixState a others t) m := by
    unfold SingleCellMemMapDataset.concatPrefixState
    rw [List.take_succ]
    have hm' : others[t]? = some m := by simpa [← List.get?_eq_getElem?] using hm
    rw [hm']
    simp [SingleCellMemMapDataset.concatLoop, List.foldl_append]
  have hcum : (SingleCellMemMapDataset.concatPrefixState a others t).cumulative_rows =
      a.numberOfRowsVal +
        ((others.take t).map SingleCellMemMapDataset.numberOfRowsVal).sum := by
    unfold SingleCellMemMapDataset.concatPrefixState
    rw [concatLoop_cumulative_rows, concatInit_cumulative_rows]
  -- the prefix state's row array still has the full allocated length
  have hlen : (SingleCellMemMapDataset.concatPrefixState a others t).row_arr.length =
      SingleCellMemMapDataset.totalRows a others + 1 := by
    unfold SingleCellMemMapDataset.concatPrefixState
    rw [concatLoop_row_arr_length _ _
        (fun x hx => hwf x (List.mem_of_mem_take hx)) ?_,
      concatInit_row_arr_length]
    · unfold SingleCellMemMapDataset.totalRows
      omega
    · rw [concatInit_row_arr_length, concatInit_cumulative_rows]
      · have h1 := sum_map_take_le SingleCellMemMapDataset.numberOfRowsVal others t
        unfold SingleCellMemMapDataset.totalRows
        omega
      · unfold SingleCellMemMapDataset.totalRows
        omega
  have hsum : ((others.take t).map SingleCellMemMapDataset.numberOfRowsVal).sum +
      m.numberOfRowsVal ≤ (others.map SingleCellMemMapDataset.numberOfRowsVal).sum := by
    have h1 := sum_map_take_succ SingleCellMemMapDataset.numberOfRowsVal others t m hm
    have h2 := sum_map_take_le SingleCellMemMapDataset.numberOfRowsVal others (t + 1)
    omega
  refine ⟨hcum, hstep, ?_⟩
  intro j hj
  rw [hstep]
  simp only [SingleCellMemMapDataset.concatStep]
  rw [getD_writeSlice_inside]
  · rw [List.getD_eq_getElem _ _ (by simpa using hj), List.getElem_map,
      List.getD_eq_getElem _ _ hj]
  · rw [hlen, hcum]
    unfold SingleCellMemMapDataset.totalRows
    omega
  · simpa using hj

theorem concat_copies_row_pointers_shifted_witness :
    exA.row_index.length = exA.numberOfRowsVal + 1 ∧
    (∀ m ∈ [exB], m.row_index.length = m.numberOfRowsVal + 1) ∧
    ([exB].get? 0 = some exB) ∧
    ((SingleCellMemMapDataset.concatPrefixState exA [exB] 0).cumulative_rows =
      exA.numberOfRowsVal +
        (([exB].take 0).map SingleCellMemMapDataset.numberOfRowsVal).sum ∧
    SingleCellMemMapDataset.concatPrefixState exA [exB] 1 =
      SingleCellMemMapDataset.concatStep
        (SingleCellMemMapDataset.concatPrefixState exA [exB] 0) exB ∧
    ∀ j, j < exB.row_index.length →
      (SingleCellMemMapDataset.concatPrefixState exA [exB] 1).row_arr.getD
          ((SingleCellMemMapDataset.concatPrefixState exA [exB] 0).cumulative_rows + j) 0 =
        exB.row_index.getD j 0 +
          (SingleCellMemMapDataset.concatPrefixState exA [exB] 0).cumulative_rows) :=
  ⟨rfl, by decide, rfl,
    concat_copies_row_pointers_shifted exA [exB] rfl (by decide) 0 exB rfl⟩

/-- Successful array allocation pins down the three zero-filled arrays and
the positivity of both requested shapes. -/
theorem create_csr_ok_spec (numE numR : Int) (d0 : List Rat) (c0 r0 : List Nat)
    (h : create_compressed_sparse_row_memmaps numE numR = .ok (d0, c0, r0)) :
    d0 = List.replicate numE.toNat 0 ∧ c0 = List.replicate numE.toNat 0 ∧
    r0 = List.replicate (numR.toNat + 1) 0 ∧ 0 < numE ∧ 0 < numR := by
  unfold create_compressed_sparse_row_memmaps at h
  split at h
  · cases h
  split at h
  · cases h
  cases h
  rename_i h1 h2
  exact ⟨rfl, rfl, rfl, by omega, by omega⟩

/-- What a successful `load_h5ad` guarantees about the store and the on-disk
state it leaves behind. -/
theorem load_h5ad_ok_spec (src : H5adSource) (s : SingleCellMemMapDataset) (d : StoreDir)
    (h : SingleCellMemMapDataset.load_h5ad src = .ok (s, d)) :
    s.version = libraryVersion ∧
    s.metadata_num_rows.isSome = true ∧
    s.data = src.csr_data ∧
    s.col_index = writeSlice (List.replicate src.csr_data.length 0) 0 src.csr_indices ∧
    s.row_index = writeSlice (List.replicate (src.n_obs + 1) 0) 0 src.csr_indptr ∧
    s.feature_index = [⟨src.n_obs, src.n_vars⟩] ∧
    d = { path_exists := true, version_file := some libraryVersion,
          metadata_file := some s.metadata_num_rows,
          features_file := some s.feature_index,
          data_file := some s.data, row_file := some s.row_index,
          col_file := some s.col_index } := by
  unfold SingleCellMemMapDataset.load_h5ad at h
  split at h
  · cases h
  split at h
  · cases h
  dsimp only at h
  cases hc : create_compressed_sparse_row_memmaps (src.csr_data.length : Int)
      (src.n_obs : Int) with
  | error e =>
    rw [hc] at h
    cases h
  | ok trip =>
    obtain ⟨d0, c0, r0⟩ := trip
    obtain ⟨hd0, hc0, hr0, hE, hR⟩ := create_csr_ok_spec _ _ _ _ _ hc
    subst hd0
    subst hc0
    subst hr0
    rw [hc] at h
    dsimp only at h
    unfold SingleCellMemMapDataset.save at h
    dsimp only at h
    cases hn : SingleCellMemMapDataset.number_of_rows
        { data := writeSlice (List.replicate (src.csr_data.length : Int).toNat 0) 0
            src.csr_data,
          col_index := writeSlice (List.replicate (src.csr_data.length : Int).toNat 0) 0
            src.csr_indices,
          row_index := writeSlice (List.replicate ((src.n_obs : Int).toNat + 1) 0) 0
            src.csr_indptr,
          feature_index := RowFeatureIndex.append_features [] src.n_obs src.n_vars,
          metadata_num_rows := none, version := libraryVersion } with
    | error e =>
      rw [hn] at h
      simp only [Except.map, bind, Except.bind] at h
      cases h
    | ok n =>
      rw [hn] at h
      simp only [Except.map, bind, Except.bind] at h
      simp only [Option.isNone_some, Bool.false_eq_true, or_self, if_false,
        Except.ok.injEq, Prod.mk.injEq] at h
      obtain ⟨hs, hd⟩ := h
      subst hs
      subst hd
      refine ⟨rfl, rfl, ?_, ?_, ?_, rfl, rfl⟩
      · exact writeSlice_zero_full _ _ (by simp)
      · simp
      · simp

/-- C5.  For a freshly ingested store (`load_h5ad`), calling `save` and then
`load` from the same path yields a store with the same `number_of_rows()`,
the same `number_of_values()`, and `get_row(i)` equal to the original's for
every row index. -/
theorem save_load_round_trip (src : H5adSource) (s : SingleCellMemMapDataset)
    (d : StoreDir) (h : SingleCellMemMapDataset.load_h5ad src = .ok (s, d)) :
    ∃ s2 d2 s3,
      SingleCellMemMapDataset.save s d = .ok (s2, d2) ∧
      SingleCellMemMapDataset.load d2 = .ok s3 ∧
      s3.number_of_rows = s.number_of_rows ∧
      s3.number_of_values = s.number_of_values ∧
      ∀ i, s3.get_row i = s.get_row i := by
  obtain ⟨hver, hmeta, hdata, hcol, hrow, hfi, hd⟩ := load_h5ad_ok_spec src s d h
  subst hd
  obtain ⟨da, co, ro, fi, md, ve⟩ := s
  subst hver
  obtain ⟨n, hn⟩ := Option.isSome_iff_exists.mp hmeta
  subst hn
  refine ⟨⟨da, co, ro, fi, some n, libraryVersion⟩,
    { path_exists := true, version_file := some libraryVersion,
      metadata_file := some (some n), features_file := some fi,
      data_file := some da, row_file := some ro, col_file := some co },
    ⟨da, co, ro, fi, some n, libraryVersion⟩, ?_, ?_, rfl, rfl, fun i => rfl⟩
  · unfold SingleCellMemMapDataset.save
    simp [bind, Except.bind]
  · unfold SingleCellMemMapDataset.load
    simp

theorem save_load_round_trip_witness :
    SingleCellMemMapDataset.load_h5ad scenSrc = .ok (scenStore, scenDir) ∧
    ∃ s2 d2 s3,
      SingleCellMemMapDataset.save scenStore scenDir = .ok (s2, d2) ∧
      SingleCellMemMapDataset.load d2 = .ok s3 ∧
      s3.number_of_rows = scenStore.number_of_rows ∧
      s3.number_of_values = scenStore.number_of_values ∧
      ∀ i, s3.get_row i = scenStore.get_row i :=
  ⟨rfl, save_load_round_trip scenSrc scenStore scenDir rfl⟩

/-- C6 counterexample.  For the spec's own ingestion scenario (3 rows,
5-column schema, 5 stored entries), the final row pointer is 5 — the stored
element count — while `number_of_values()` is 15 (schema-width slots summed
over rows), so `row_index[-1] == number_of_values()` fails; and after a
`concat` the row-pointer array need not even be non-decreasing (`exC` has
row pointers `[0,3,5]`; concatenating `exB` produces `[0,3,2,3]`). -/
theorem row_pointer_invariant_counterexample :
    (SingleCellMemMapDataset.load_h5ad scenSrc).toOption.map
        (fun p => (p.1.row_index.getD (p.1.row_index.length - 1) 0, p.1.number_of_values)) =
      some (5, 15) ∧
    (5 : Nat) ≠ 15 ∧
    (exC.concat [exB]).toOption.map (fun s2 => s2.row_index) = some [0, 3, 2, 3] ∧
    (exC.concat [exB]).toOption.map (fun s2 => s2.number_nonzero_values) = some 6 ∧
    ¬ RowPtrInvariant [0, 3, 2, 3] 6 := by
  refine ⟨by decide, by decide, by decide, by decide, ?_⟩
  unfold RowPtrInvariant
  decide

/-- C6 (amended).  For every store freshly ingested by `load_h5ad` from a
valid CSR source, and for every store obtained by `load`ing what that
ingestion left on disk, the row-pointer array satisfies `row_index[0] == 0`,
`row_index[-1] == number_nonzero_values()` (the stored-element count — not
`number_of_values()`, which counts schema-width slots), and is
non-decreasing.  `concat` does not preserve this invariant. -/
theorem row_pointer_invariant_ingest_load
    (src : H5adSource) (s : SingleCellMemMapDataset) (d : StoreDir)
    (h : SingleCellMemMapDataset.load_h5ad src = .ok (s, d))
    (hlen : src.csr_indptr.length = src.n_obs + 1)
    (hfirst : src.csr_indptr.getD 0 0 = 0)
    (hlast : src.csr_indptr.getD src.n_obs 0 = src.csr_data.length)
    (hmono : ∀ j, j < src.csr_indptr.length → ∀ i, i ≤ j →
      src.csr_indptr.getD i 0 ≤ src.csr_indptr.getD j 0) :
    RowPtrInvariant s.row_index s.number_nonzero_values ∧
    ∀ s2, SingleCellMemMapDataset.load d = .ok s2 →
      RowPtrInvariant s2.row_index s2.number_nonzero_values := by
  obtain ⟨hver, hmeta, hdata, hcol, hrow, hfi, hd⟩ := load_h5ad_ok_spec src s d h
  have hrow' : s.row_index = src.csr_indptr := by
    rw [hrow]
    exact writeSlice_zero_full _ _ (by simp [hlen])
  have hinv : RowPtrInvariant s.row_index s.number_nonzero_values := by
    unfold RowPtrInvariant SingleCellMemMapDataset.number_nonzero_values
    rw [hrow', hdata]
    refine ⟨hfirst, ?_, hmono⟩
    rw [hlen]
    simpa using hlast
  refine ⟨hinv, ?_⟩
  intro s2 h2
  rw [hd] at h2
  unfold SingleCellMemMapDataset.load at h2
  simp at h2
  subst h2
  exact hinv

theorem row_pointer_invariant_ingest_load_witness :
    SingleCellMemMapDataset.load_h5ad scenSrc = .ok (scenStore, scenDir) ∧
    scenSrc.csr_indptr.length = scenSrc.n_obs + 1 ∧
    scenSrc.csr_indptr.getD 0 0 = 0 ∧
    scenSrc.csr_indptr.getD scenSrc.n_obs 0 = scenSrc.csr_data.length ∧
    (RowPtrInvariant scenStore.row_index scenStore.number_nonzero_values ∧
      ∀ s2, SingleCellMemMapDataset.load scenDir = .ok s2 →
        RowPtrInvariant s2.row_index s2.number_nonzero_values) :=
  ⟨rfl, rfl, rfl, rfl,
    row_pointer_invariant_ingest_load scenSrc scenStore scenDir rfl rfl rfl rfl
      (by decide)⟩

/-- C3.  For a well-formed row (column slice as long as the value slice, all
stored column ids valid under the row's schema width and pairwise distinct),
`get_row_padded(i)` returns a dense array of length
`number_vars_at_row(i)` that holds each stored value at its column id and is
zero at every other position. -/
theorem get_row_padded_correct (s : SingleCellMemMapDataset)
    (hcollen : s.col_index.length = s.data.length) (i : Nat)
    (hi : i < s.numberOfRowsVal)
    (hb : ∀ c ∈ (s.get_row i).2, c < RowFeatureIndex.number_vars_at_row s.feature_index i)
    (hnd : (s.get_row i).2.Nodup) :
    ∃ arr, s.get_row_padded i = some arr ∧
      arr.length = RowFeatureIndex.number_vars_at_row s.feature_index i ∧
      (∀ k, k < (s.get_row i).2.length →
        arr.getD ((s.get_row i).2.getD k 0) 0 = (s.get_row i).1.getD k 0) ∧
      (∀ c, c ∉ (s.get_row i).2 → arr.getD c 0 = 0) := by
  have hlen : (s.get_row i).1.length = (s.get_row i).2.length :=
    get_row_fst_length_eq s hcollen i
  obtain ⟨out, hout⟩ := padLoop_isSome (s.get_row i).1 (s.get_row i).2
    (List.replicate (RowFeatureIndex.number_vars_at_row s.feature_index i) (0 : Rat))
    (Nat.le_of_eq hlen) (fun c hc => by simpa using hb c hc)
  refine ⟨out, hout, ?_, ?_, ?_⟩
  · rw [padLoop_length _ _ _ _ hout]
    simp
  · intro k hk
    exact padLoop_getD_entry _ _ _ _ hlen hnd k hk hout
  · intro c hc
    rw [padLoop_getD_notMem _ _ _ _ hlen c hc hout]
    exact getD_replicate_zero _ c

theorem get_row_padded_correct_witness :
    scenStore.col_index.length = scenStore.data.length ∧
    2 < scenStore.numberOfRowsVal ∧
    (∃ arr, scenStore.get_row_padded 2 = some arr ∧
      arr.length = RowFeatureIndex.number_vars_at_row scenStore.feature_index 2 ∧
      (∀ k, k < (scenStore.get_row 2).2.length →
        arr.getD ((scenStore.get_row 2).2.getD k 0) 0 = (scenStore.get_row 2).1.getD k 0) ∧
      (∀ c, c ∉ (scenStore.get_row 2).2 → arr.getD c 0 = 0)) :=
  ⟨rfl, by decide, get_row_padded_correct scenStore rfl 2 (by decide) (by decide) (by decide)⟩
